import Mathlib

/-!
Shallow embedding of `src/constraint_solver/booleans.cc` (the `SatPropagator`
constraint and the seven boolean-relation encoder functions), together with the
theorems checking the specification's claims about it.

The external MiniSat engine (`core/Solver.cc`, included by the source but not
part of this subsystem) is modelled from the spec's description of its
interface: an append-only clause database, sequential variable allocation, and
a solve-under-assumptions oracle.
-/

namespace OrTools

/-- A MiniSat literal, exactly as in MiniSat's `SolverTypes.h`: a single
integer `x = 2 * var + sign`, where the sign bit set means the negated
literal.  The special error value `lit_Error` is `x = -1`. -/
structure Lit where
  x : Int
deriving DecidableEq, Repr

/-- MiniSat `mkLit(var, sign)`: `x = var + var + (int)sign`. -/
def mkLit (v : Nat) (sign : Bool) : Lit :=
  ⟨2 * (v : Int) + (if sign then 1 else 0)⟩

/-- MiniSat `operator ~` on literals: flip the low bit of `x`. -/
def litNot (l : Lit) : Lit :=
  ⟨if l.x % 2 = 0 then l.x + 1 else l.x - 1⟩

/-- MiniSat `lit_Error` (`{ -1 }`), returned by `Literal` on a non-boolean
expression. -/
def lit_Error : Lit := ⟨-1⟩

/-- A host-solver expression, as seen through `Solver::IsBooleanVar`: either a
reference to a boolean decision variable (underlying variable id plus a
negation flag) or anything else (a non-boolean expression, for which
`IsBooleanVar` fails). -/
inductive IntExpr where
  | boolRef (baseVar : Nat) (negated : Bool)
  | nonBool (id : Nat)
deriving DecidableEq, Repr

/-- `Solver::IsBooleanVar(expr, &var, &negated)`: succeeds exactly on boolean
decision references, yielding the underlying variable and the negation flag. -/
def isBooleanVar : IntExpr → Option (Nat × Bool)
  | IntExpr.boolRef v n => some (v, n)
  | IntExpr.nonBool _ => none

/-- Lookup in the `hash_map<IntVar*, Minisat::Var> indices_` registry,
modelled as an association list keyed by variable id (keys are inserted at
most once, so first-match lookup is the map lookup). -/
def lookupVar : List (Nat × Nat) → Nat → Option Nat
  | [], _ => none
  | (k, m) :: rest, v => if k = v then some m else lookupVar rest v

/-- The `SatPropagator` state: the registry (`indices_`, `vars_`), the engine
side (MiniSat's variable counter and its permanent clause database), and the
incremental trail (`bound_literals_` with the reversible counter
`num_bound_literals_`). -/
structure SatState where
  indices : List (Nat × Nat)
  vars : List Nat
  nextVar : Nat
  clauses : List (List Lit)
  bound_literals : List Lit
  num_bound_literals : Nat
deriving DecidableEq, Repr

/-- The freshly constructed propagator: `num_bound_literals_(0)` and all
containers empty. -/
def initState : SatState :=
  { indices := [], vars := [], nextVar := 0, clauses := [],
    bound_literals := [], num_bound_literals := 0 }

/-- `SatPropagator::Check(IntExpr*)`: true iff `IsBooleanVar` succeeds.  A
`const` method: it touches no propagator state, which the pure type records. -/
def Check (e : IntExpr) : Bool :=
  (isBooleanVar e).isSome

/-- `SatPropagator::Check(const std::vector<IntVar*>&)`: every element passes
the single-expression check (the loop returns `false` at the first failure,
`true` after a complete pass). -/
def CheckAll (es : List IntExpr) : Bool :=
  es.all Check

/-- `SatPropagator::Literal(IntExpr*)`: `lit_Error` on a non-boolean
expression; otherwise the registered MiniSat variable (allocating a fresh one
via `newVar` on first reference) polarized by the expression's negation
flag. -/
def Literal (s : SatState) (e : IntExpr) : Lit × SatState :=
  match isBooleanVar e with
  | none => (lit_Error, s)
  | some (v, neg) =>
    match lookupVar s.indices v with
    | some mv => (mkLit mv neg, s)
    | none =>
      (mkLit s.nextVar neg,
        { s with nextVar := s.nextVar + 1,
                 vars := s.vars ++ [v],
                 indices := s.indices ++ [(v, s.nextVar)] })

/-- Fetch literals for a vector of variables in order, threading the state as
the loop `lits[i] = sat->Literal(vars[i])` does. -/
def LiteralList (s : SatState) (es : List IntExpr) : List Lit × SatState :=
  match es with
  | [] => ([], s)
  | e :: rest =>
    let p := Literal s e
    let q := LiteralList p.2 rest
    (p.1 :: q.1, q.2)

/-- Modelled from the spec: the engine's add-clause entry points
(`SatPropagator::AddClause` forwarding to `minisat_.addClause*`) append the
clause to the permanent, append-only clause database. -/
def AddClause (s : SatState) (ps : List Lit) : Bool × SatState :=
  (true, { s with clauses := s.clauses ++ [ps] })

/-- `std::vector<Lit>::resize(n)`: keep the first `n` entries, default-insert
(value-initialized, `x = 0`) when growing. -/
def resizeLits (l : List Lit) (n : Nat) : List Lit :=
  l.take n ++ List.replicate (n - l.length) ⟨0⟩

/-- `SatPropagator::VariableBound(index)`.  The solve call on the engine is an
oracle parameter `solveFn` (clause database, assumptions) modelled from the
spec's solve-under-assumptions interface.  The literal enqueued is
`mkLit(index, vars_[index]->Value())` — the bound value is passed as the
MiniSat sign bit.  The trail is resized to the reversible counter, the counter
incremented, the literal pushed, and the engine consulted; the returned flag
is `true` exactly when `solver()->Fail()` is raised (the UNSAT answer), and in
either case the state after the call is the one the engine saw. -/
def VariableBound (solveFn : List (List Lit) → List Lit → Bool)
    (s : SatState) (index : Nat) (value : Bool) : Bool × SatState :=
  let lit := mkLit index value
  let trail := resizeLits s.bound_literals s.num_bound_literals ++ [lit]
  let s1 := { s with bound_literals := trail,
                     num_bound_literals := s.num_bound_literals + 1 }
  if solveFn s1.clauses trail then (false, s1) else (true, s1)

/-- `AddBoolEq`: validate both operands, then add `(¬L ∨ R)` and `(L ∨ ¬R)`
and return `true`. -/
def AddBoolEq (s : SatState) (left right : IntExpr) : Bool × SatState :=
  if !Check left || !Check right then (false, s)
  else
    let p1 := Literal s left
    let p2 := Literal p1.2 right
    let s2 := (AddClause p2.2 [litNot p1.1, p2.1]).2
    let s3 := (AddClause s2 [p1.1, litNot p2.1]).2
    (true, s3)

/-- `AddBoolLe`: validate both operands, then add `(¬L ∨ R)` and return
`true`. -/
def AddBoolLe (s : SatState) (left right : IntExpr) : Bool × SatState :=
  if !Check left || !Check right then (false, s)
  else
    let p1 := Literal s left
    let p2 := Literal p1.2 right
    let s2 := (AddClause p2.2 [litNot p1.1, p2.1]).2
    (true, s2)

/-- `AddBoolNot`: validate both operands, then add `(¬L ∨ ¬R)` and `(L ∨ R)`
and return `true`. -/
def AddBoolNot (s : SatState) (left right : IntExpr) : Bool × SatState :=
  if !Check left || !Check right then (false, s)
  else
    let p1 := Literal s left
    let p2 := Literal p1.2 right
    let s2 := (AddClause p2.2 [litNot p1.1, litNot p2.1]).2
    let s3 := (AddClause s2 [p1.1, p2.1]).2
    (true, s3)

/-- `AddBoolAndArrayEqVar` (`booleans.cc:193-210`): its first statement is an
unconditional `return false;`, so the validation and clause-building code at
lines 197-209 is unreachable and the observable behaviour is exactly constant
failure with no state change. -/
def AddBoolAndArrayEqVar (s : SatState) (vars : List IntExpr)
    (target : IntExpr) : Bool × SatState :=
  (false, s)

/-- `AddBoolAndEqVar`: validate the three operands, add
`(¬L ∨ ¬R ∨ T)`, `(L ∨ ¬T)`, `(R ∨ ¬T)` — and then fall off the end of the
non-void function without a return statement; the missing value is modelled
as `none`. -/
def AddBoolAndEqVar (s : SatState) (left right target : IntExpr) :
    Option Bool × SatState :=
  if !Check left || !Check right || !Check target then (some false, s)
  else
    let p1 := Literal s left
    let p2 := Literal p1.2 right
    let p3 := Literal p2.2 target
    let s2 := (AddClause p3.2 [litNot p1.1, litNot p2.1, p3.1]).2
    let s3 := (AddClause s2 [p1.1, litNot p3.1]).2
    let s4 := (AddClause s3 [p2.1, litNot p3.1]).2
    (none, s4)

/-- `AddBoolOrArrayEqualTrue`: validate the vector, add the single clause
`(v₁ ∨ … ∨ vₙ)` — and then `return false;` on the success path as well. -/
def AddBoolOrArrayEqualTrue (s : SatState) (vars : List IntExpr) :
    Bool × SatState :=
  if !CheckAll vars then (false, s)
  else
    let p := LiteralList s vars
    let s2 := (AddClause p.2 p.1).2
    (false, s2)

/-- `AddBoolAndArrayEqualFalse`: validate the vector, add the single clause
`(¬v₁ ∨ … ∨ ¬vₙ)` — and then `return false;` on the success path as well. -/
def AddBoolAndArrayEqualFalse (s : SatState) (vars : List IntExpr) :
    Bool × SatState :=
  if !CheckAll vars then (false, s)
  else
    let p := LiteralList s vars
    let s2 := (AddClause p.2 (p.1.map litNot)).2
    (false, s2)

/-- Every operation exposed by the subsystem (the seven encoder calls, a
literal fetch, a bind event with its solve oracle, and the host unwinding the
reversible counter on backtracking, which restores `num_bound_literals_` and
touches nothing else). -/
inductive SolverOp where
  | opEq (l r : IntExpr)
  | opLe (l r : IntExpr)
  | opNot (l r : IntExpr)
  | opAndEqVar (l r t : IntExpr)
  | opAndArrayEqVar (vs : List IntExpr) (t : IntExpr)
  | opOrArrayTrue (vs : List IntExpr)
  | opAndArrayFalse (vs : List IntExpr)
  | opLiteral (e : IntExpr)
  | opBound (f : List (List Lit) → List Lit → Bool) (i : Nat) (b : Bool)
  | opBacktrack (k : Nat)

/-- Apply one operation to the propagator state. -/
def applySolverOp (s : SatState) : SolverOp → SatState
  | SolverOp.opEq l r => (AddBoolEq s l r).2
  | SolverOp.opLe l r => (AddBoolLe s l r).2
  | SolverOp.opNot l r => (AddBoolNot s l r).2
  | SolverOp.opAndEqVar l r t => (AddBoolAndEqVar s l r t).2
  | SolverOp.opAndArrayEqVar vs t => (AddBoolAndArrayEqVar s vs t).2
  | SolverOp.opOrArrayTrue vs => (AddBoolOrArrayEqualTrue s vs).2
  | SolverOp.opAndArrayFalse vs => (AddBoolAndArrayEqualFalse s vs).2
  | SolverOp.opLiteral e => (Literal s e).2
  | SolverOp.opBound f i b => (VariableBound f s i b).2
  | SolverOp.opBacktrack k =>
      { s with num_bound_literals := s.num_bound_literals - k }

/-- Run a sequence of operations. -/
def runSolverOps (s : SatState) : List SolverOp → SatState
  | [] => s
  | op :: rest => runSolverOps (applySolverOp s op) rest

/-- A literal under a total assignment to the engine variables: `mkLit v s` is
satisfied iff the assignment of `v` differs from the sign bit. -/
def evalLit (f : Nat → Bool) (l : Lit) : Bool :=
  f (l.x / 2).toNat != decide (l.x % 2 = 1)

/-- A clause is satisfied iff some literal in it is. -/
def clauseSat (f : Nat → Bool) (c : List Lit) : Bool :=
  c.any (evalLit f)

/-- A clause database is satisfied iff every clause is. -/
def cnfSat (f : Nat → Bool) (cs : List (List Lit)) : Bool :=
  cs.all (clauseSat f)

/-- Modelled from the spec: satisfiability of the engine's clause database
(the CNF semantics of the glossary — some assignment satisfies every
clause). -/
def cnfSatisfiable (cs : List (List Lit)) : Prop :=
  ∃ f : Nat → Bool, cnfSat f cs = true

/-- A solve oracle that always answers satisfiable; used to exercise the
trail mechanics on concrete inputs. -/
def oracleTrue : List (List Lit) → List Lit → Bool :=
  fun _ _ => true

/-- A state with one registered variable (solver variable 5 mapped to engine
variable 0), used as a concrete instantiation point. -/
def regState : SatState :=
  { indices := [(5, 0)], vars := [5], nextVar := 1, clauses := [],
    bound_literals := [], num_bound_literals := 0 }

lemma lookupVar_append_left {l1 l2 : List (Nat × Nat)} {k : Nat} {m : Nat}
    (h : lookupVar l1 k = some m) : lookupVar (l1 ++ l2) k = some m := by
  induction l1 with
  | nil => simp [lookupVar] at h
  | cons hd tl ih =>
    obtain ⟨a, b⟩ := hd
    by_cases hk : a = k
    · simp only [lookupVar, if_pos hk, List.cons_append] at h ⊢
      exact h
    · simp only [lookupVar, hk, if_neg, List.cons_append] at h ⊢
      exact ih h

lemma lookupVar_append_self {l : List (Nat × Nat)} {k m : Nat}
    (h : lookupVar l k = none) : lookupVar (l ++ [(k, m)]) k = some m := by
  induction l with
  | nil => simp [lookupVar]
  | cons hd tl ih =>
    obtain ⟨a, b⟩ := hd
    by_cases hk : a = k
    · simp [lookupVar, hk] at h
    · simp only [lookupVar, hk, if_neg, List.cons_append] at h ⊢
      exact ih h

lemma literal_clauses (s : SatState) (e : IntExpr) :
    ((Literal s e).2).clauses = s.clauses := by
  cases h : isBooleanVar e with
  | none => simp [Literal, h]
  | some p =>
    obtain ⟨v, n⟩ := p
    cases hl : lookupVar s.indices v <;> simp [Literal, h, hl]

lemma literal_trail (s : SatState) (e : IntExpr) :
    ((Literal s e).2).bound_literals = s.bound_literals ∧
    ((Literal s e).2).num_bound_literals = s.num_bound_literals := by
  cases h : isBooleanVar e with
  | none => simp [Literal, h]
  | some p =>
    obtain ⟨v, n⟩ := p
    cases hl : lookupVar s.indices v <;> simp [Literal, h, hl]

lemma literal_indices_mono {s : SatState} {k m : Nat} (e : IntExpr)
    (h : lookupVar s.indices k = some m) :
    lookupVar ((Literal s e).2).indices k = some m := by
  cases hb : isBooleanVar e with
  | none => simpa [Literal, hb] using h
  | some p =>
    obtain ⟨v, n⟩ := p
    cases hl : lookupVar s.indices v with
    | some mv => simpa [Literal, hb, hl] using h
    | none =>
      simp only [Literal, hb, hl]
      exact lookupVar_append_left h

lemma literalList_clauses (s : SatState) (es : List IntExpr) :
    ((LiteralList s es).2).clauses = s.clauses := by
  induction es generalizing s with
  | nil => rfl
  | cons e rest ih =>
    simp only [LiteralList]
    rw [ih, literal_clauses]

lemma literalList_trail (s : SatState) (es : List IntExpr) :
    ((LiteralList s es).2).bound_literals = s.bound_literals ∧
    ((LiteralList s es).2).num_bound_literals = s.num_bound_literals := by
  induction es generalizing s with
  | nil => exact ⟨rfl, rfl⟩
  | cons e rest ih =>
    simp only [LiteralList]
    refine ⟨?_, ?_⟩
    · rw [(ih (Literal s e).2).1, (literal_trail s e).1]
    · rw [(ih (Literal s e).2).2, (literal_trail s e).2]

lemma literalList_indices_mono {s : SatState} {k m : Nat} (es : List IntExpr)
    (h : lookupVar s.indices k = some m) :
    lookupVar ((LiteralList s es).2).indices k = some m := by
  induction es generalizing s with
  | nil => exact h
  | cons e rest ih =>
    simp only [LiteralList]
    exact ih (literal_indices_mono e h)

lemma resizeLits_length (l : List Lit) (n : Nat) :
    (resizeLits l n).length = n := by
  simp only [resizeLits, List.length_append, List.length_take,
    List.length_replicate]
  omega

lemma variableBound_state (f : List (List Lit) → List Lit → Bool)
    (s : SatState) (i : Nat) (b : Bool) :
    (VariableBound f s i b).2 =
      { s with
        bound_literals :=
          resizeLits s.bound_literals s.num_bound_literals ++ [mkLit i b],
        num_bound_literals := s.num_bound_literals + 1 } := by
  simp only [VariableBound]
  split <;> rfl

lemma addBoolEq_state (s : SatState) (l r : IntExpr) :
    ((AddBoolEq s l r).2).bound_literals = s.bound_literals
    ∧ ((AddBoolEq s l r).2).num_bound_literals = s.num_bound_literals
    ∧ (∀ k m, lookupVar s.indices k = some m →
        lookupVar ((AddBoolEq s l r).2).indices k = some m)
    ∧ (∀ c ∈ s.clauses, c ∈ ((AddBoolEq s l r).2).clauses) := by
  unfold AddBoolEq
  split
  · exact ⟨rfl, rfl, fun k m h => h, fun c hc => hc⟩
  · simp only [AddClause]
    refine ⟨?_, ?_, ?_, ?_⟩
    · rw [(literal_trail _ r).1, (literal_trail s l).1]
    · rw [(literal_trail _ r).2, (literal_trail s l).2]
    · intro k m h
      exact literal_indices_mono r (literal_indices_mono l h)
    · intro c hc
      refine List.mem_append_left _ (List.mem_append_left _ ?_)
      rw [literal_clauses, literal_clauses]
      exact hc

lemma addBoolLe_state (s : SatState) (l r : IntExpr) :
    ((AddBoolLe s l r).2).bound_literals = s.bound_literals
    ∧ ((AddBoolLe s l r).2).num_bound_literals = s.num_bound_literals
    ∧ (∀ k m, lookupVar s.indices k = some m →
        lookupVar ((AddBoolLe s l r).2).indices k = some m)
    ∧ (∀ c ∈ s.clauses, c ∈ ((AddBoolLe s l r).2).clauses) := by
  unfold AddBoolLe
  split
  · exact ⟨rfl, rfl, fun k m h => h, fun c hc => hc⟩
  · simp only [AddClause]
    refine ⟨?_, ?_, ?_, ?_⟩
    · rw [(literal_trail _ r).1, (literal_trail s l).1]
    · rw [(literal_trail _ r).2, (literal_trail s l).2]
    · intro k m h
      exact literal_indices_mono r (literal_indices_mono l h)
    · intro c hc
      refine List.mem_append_left _ ?_
      rw [literal_clauses, literal_clauses]
      exact hc

lemma addBoolNot_state (s : SatState) (l r : IntExpr) :
    ((AddBoolNot s l r).2).bound_literals = s.bound_literals
    ∧ ((AddBoolNot s l r).2).num_bound_literals = s.num_bound_literals
    ∧ (∀ k m, lookupVar s.indices k = some m →
        lookupVar ((AddBoolNot s l r).2).indices k = some m)
    ∧ (∀ c ∈ s.clauses, c ∈ ((AddBoolNot s l r).2).clauses) := by
  unfold AddBoolNot
  split
  · exact ⟨rfl, rfl, fun k m h => h, fun c hc => hc⟩
  · simp only [AddClause]
    refine ⟨?_, ?_, ?_, ?_⟩
    · rw [(literal_trail _ r).1, (literal_trail s l).1]
    · rw [(literal_trail _ r).2, (literal_trail s l).2]
    · intro k m h
      exact literal_indices_mono r (literal_indices_mono l h)
    · intro c hc
      refine List.mem_append_left _ (List.mem_append_left _ ?_)
      rw [literal_clauses, literal_clauses]
      exact hc

lemma addBoolAndEqVar_state (s : SatState) (l r t : IntExpr) :
    ((AddBoolAndEqVar s l r t).2).bound_literals = s.bound_literals
    ∧ ((AddBoolAndEqVar s l r t).2).num_bound_literals = s.num_bound_literals
    ∧ (∀ k m, lookupVar s.indices k = some m →
        lookupVar ((AddBoolAndEqVar s l r t).2).indices k = some m)
    ∧ (∀ c ∈ s.clauses, c ∈ ((AddBoolAndEqVar s l r t).2).clauses) := by
  unfold AddBoolAndEqVar
  split
  · exact ⟨rfl, rfl, fun k m h => h, fun c hc => hc⟩
  · simp only [AddClause]
    refine ⟨?_, ?_, ?_, ?_⟩
    · rw [(literal_trail _ t).1, (literal_trail _ r).1, (literal_trail s l).1]
    · rw [(literal_trail _ t).2, (literal_trail _ r).2, (literal_trail s l).2]
    · intro k m h
      exact literal_indices_mono t
        (literal_indices_mono r (literal_indices_mono l h))
    · intro c hc
      refine List.mem_append_left _
        (List.mem_append_left _ (List.mem_append_left _ ?_))
      rw [literal_clauses, literal_clauses, literal_clauses]
      exact hc

lemma addBoolOrArrayEqualTrue_state (s : SatState) (vs : List IntExpr) :
    ((AddBoolOrArrayEqualTrue s vs).2).bound_literals = s.bound_literals
    ∧ ((AddBoolOrArrayEqualTrue s vs).2).num_bound_literals
        = s.num_bound_literals
    ∧ (∀ k m, lookupVar s.indices k = some m →
        lookupVar ((AddBoolOrArrayEqualTrue s vs).2).indices k = some m)
    ∧ (∀ c ∈ s.clauses, c ∈ ((AddBoolOrArrayEqualTrue s vs).2).clauses) := by
  unfold AddBoolOrArrayEqualTrue
  split
  · exact ⟨rfl, rfl, fun k m h => h, fun c hc => hc⟩
  · simp only [AddClause]
    refine ⟨?_, ?_, ?_, ?_⟩
    · rw [(literalList_trail s vs).1]
    · rw [(literalList_trail s vs).2]
    · intro k m h
      exact literalList_indices_mono vs h
    · intro c hc
      refine List.mem_append_left _ ?_
      rw [literalList_clauses]
      exact hc

lemma addBoolAndArrayEqualFalse_state (s : SatState) (vs : List IntExpr) :
    ((AddBoolAndArrayEqualFalse s vs).2).bound_literals = s.bound_literals
    ∧ ((AddBoolAndArrayEqualFalse s vs).2).num_bound_literals
        = s.num_bound_literals
    ∧ (∀ k m, lookupVar s.indices k = some m →
        lookupVar ((AddBoolAndArrayEqualFalse s vs).2).indices k = some m)
    ∧ (∀ c ∈ s.clauses,
        c ∈ ((AddBoolAndArrayEqualFalse s vs).2).clauses) := by
  unfold AddBoolAndArrayEqualFalse
  split
  · exact ⟨rfl, rfl, fun k m h => h, fun c hc => hc⟩
  · simp only [AddClause]
    refine ⟨?_, ?_, ?_, ?_⟩
    · rw [(literalList_trail s vs).1]
    · rw [(literalList_trail s vs).2]
    · intro k m h
      exact literalList_indices_mono vs h
    · intro c hc
      refine List.mem_append_left _ ?_
      rw [literalList_clauses]
      exact hc

lemma applySolverOp_counter_le (s : SatState) (op : SolverOp)
    (h : s.num_bound_literals ≤ s.bound_literals.length) :
    (applySolverOp s op).num_bound_literals
      ≤ (applySolverOp s op).bound_literals.length := by
  cases op with
  | opEq l r =>
    simp only [applySolverOp, (addBoolEq_state s l r).1,
      (addBoolEq_state s l r).2.1]
    exact h
  | opLe l r =>
    simp only [applySolverOp, (addBoolLe_state s l r).1,
      (addBoolLe_state s l r).2.1]
    exact h
  | opNot l r =>
    simp only [applySolverOp, (addBoolNot_state s l r).1,
      (addBoolNot_state s l r).2.1]
    exact h
  | opAndEqVar l r t =>
    simp only [applySolverOp, (addBoolAndEqVar_state s l r t).1,
      (addBoolAndEqVar_state s l r t).2.1]
    exact h
  | opAndArrayEqVar vs t => exact h
  | opOrArrayTrue vs =>
    simp only [applySolverOp, (addBoolOrArrayEqualTrue_state s vs).1,
      (addBoolOrArrayEqualTrue_state s vs).2.1]
    exact h
  | opAndArrayFalse vs =>
    simp only [applySolverOp, (addBoolAndArrayEqualFalse_state s vs).1,
      (addBoolAndArrayEqualFalse_state s vs).2.1]
    exact h
  | opLiteral e =>
    simp only [applySolverOp, (literal_trail s e).1, (literal_trail s e).2]
    exact h
  | opBound f i b =>
    simp only [applySolverOp, variableBound_state, List.length_append,
      resizeLits_length]
    simp
  | opBacktrack k =>
    simp only [applySolverOp]
    omega

lemma applySolverOp_indices_mono (s : SatState) (op : SolverOp)
    {k m : Nat} (h : lookupVar s.indices k = some m) :
    lookupVar (applySolverOp s op).indices k = some m := by
  cases op with
  | opEq l r => exact (addBoolEq_state s l r).2.2.1 k m h
  | opLe l r => exact (addBoolLe_state s l r).2.2.1 k m h
  | opNot l r => exact (addBoolNot_state s l r).2.2.1 k m h
  | opAndEqVar l r t => exact (addBoolAndEqVar_state s l r t).2.2.1 k m h
  | opAndArrayEqVar vs t => exact h
  | opOrArrayTrue vs => exact (addBoolOrArrayEqualTrue_state s vs).2.2.1 k m h
  | opAndArrayFalse vs =>
    exact (addBoolAndArrayEqualFalse_state s vs).2.2.1 k m h
  | opLiteral e => exact literal_indices_mono e h
  | opBound f i b =>
    rw [show (applySolverOp s (SolverOp.opBound f i b)).indices = s.indices
      from by simp [applySolverOp, variableBound_state]]
    exact h
  | opBacktrack n => exact h

lemma applySolverOp_clauses_mono (s : SatState) (op : SolverOp)
    {c : List Lit} (hc : c ∈ s.clauses) :
    c ∈ (applySolverOp s op).clauses := by
  cases op with
  | opEq l r => exact (addBoolEq_state s l r).2.2.2 c hc
  | opLe l r => exact (addBoolLe_state s l r).2.2.2 c hc
  | opNot l r => exact (addBoolNot_state s l r).2.2.2 c hc
  | opAndEqVar l r t => exact (addBoolAndEqVar_state s l r t).2.2.2 c hc
  | opAndArrayEqVar vs t => exact hc
  | opOrArrayTrue vs => exact (addBoolOrArrayEqualTrue_state s vs).2.2.2 c hc
  | opAndArrayFalse vs =>
    exact (addBoolAndArrayEqualFalse_state s vs).2.2.2 c hc
  | opLiteral e =>
    simpa [applySolverOp, literal_clauses] using hc
  | opBound f i b =>
    simpa [applySolverOp, variableBound_state] using hc
  | opBacktrack n => exact hc

lemma runSolverOps_counter_le (ops : List SolverOp) (s : SatState)
    (h : s.num_bound_literals ≤ s.bound_literals.length) :
    (runSolverOps s ops).num_bound_literals
      ≤ (runSolverOps s ops).bound_literals.length := by
  induction ops generalizing s with
  | nil => exact h
  | cons op rest ih =>
    exact ih (applySolverOp s op) (applySolverOp_counter_le s op h)

lemma runSolverOps_indices_mono (ops : List SolverOp) (s : SatState)
    {k m : Nat} (h : lookupVar s.indices k = some m) :
    lookupVar (runSolverOps s ops).indices k = some m := by
  induction ops generalizing s with
  | nil => exact h
  | cons op rest ih =>
    exact ih (applySolverOp s op) (applySolverOp_indices_mono s op h)

lemma runSolverOps_clauses_mem (ops : List SolverOp) (s : SatState)
    {c : List Lit} (h : c ∈ s.clauses) :
    c ∈ (runSolverOps s ops).clauses := by
  induction ops generalizing s with
  | nil => exact h
  | cons op rest ih =>
    exact ih (applySolverOp s op) (applySolverOp_clauses_mono s op h)

lemma emptyClause_unsat {cs : List (List Lit)} (h : [] ∈ cs) :
    ¬ cnfSatisfiable cs := by
  rintro ⟨f, hf⟩
  have := List.all_eq_true.mp hf _ h
  simp [clauseSat] at this

lemma litNot_mkLit (v : Nat) (b : Bool) : litNot (mkLit v b) = mkLit v (!b) := by
  cases b <;> simp [litNot, mkLit, Lit.mk.injEq] <;> omega

lemma mkLit_ne {iA iB : Nat} (vA vB : Bool) (hAB : iA ≠ iB) :
    mkLit iA vA ≠ mkLit iB vB := by
  intro hEq
  have hx := congrArg Lit.x hEq
  cases vA <;> cases vB <;> simp only [mkLit] at hx <;> omega

/-- Shorthand for an un-negated boolean decision reference, used in the
concrete instantiations. -/
def bv (n : Nat) : IntExpr := IntExpr.boolRef n false

/-- Claim C1: the claim requires every encoder's success result to coincide
with operand validation.  The code violates it: on a singleton list of valid
boolean variables, `AddBoolOrArrayEqualTrue` and `AddBoolAndArrayEqualFalse`
pass validation (and add their clause) yet return `false`, and
`AddBoolAndArrayEqVar` returns the constant `false` before even looking at
its operands. -/
theorem c1_success_result_is_hardcoded_constant :
    CheckAll [bv 0] = true
    ∧ Check (bv 1) = true
    ∧ (AddBoolOrArrayEqualTrue initState [bv 0]).1 = false
    ∧ (AddBoolAndArrayEqualFalse initState [bv 0]).1 = false
    ∧ (AddBoolAndArrayEqVar initState [bv 0] (bv 1)).1 = false := by
  decide

/-- Claim C2: the claim says the literal appended by `VariableBound` is the
asserted literal when the variable is bound true.  The code passes the bound
value as the MiniSat sign bit, so binding engine variable 0 to true appends
`mkLit 0 true` — the complement of `mkLit 0 false`, which is the literal the
registry hands out for the un-negated reference to that variable. -/
theorem c2_variable_bound_polarity_inverted :
    (VariableBound oracleTrue initState 0 true).2.bound_literals
        = [mkLit 0 true]
    ∧ mkLit 0 true = litNot (mkLit 0 false)
    ∧ (Literal initState (bv 7)).1 = mkLit 0 false := by
  decide

/-- Claim C4: the claim says `AddBoolAndArrayEqVar` on valid operands adds
the conjunction-gate clauses and reports success.  The code's unconditional
first `return false;` makes it return failure and leave the state (clause
database included) completely unchanged on the same valid operands. -/
theorem c4_and_array_eq_var_adds_nothing :
    CheckAll [bv 0] = true
    ∧ Check (bv 1) = true
    ∧ AddBoolAndArrayEqVar initState [bv 0] (bv 1) = (false, initState) := by
  decide

/-- Claim C8: the claim requires every code path to produce an explicit
boolean outcome.  `AddBoolAndEqVar`'s success path (three valid boolean
operands) falls off the end of the non-void function with no return
statement, modelled as the outcome `none`. -/
theorem c8_and_eq_var_success_path_returns_no_value :
    Check (bv 0) = true
    ∧ Check (bv 1) = true
    ∧ Check (bv 2) = true
    ∧ (AddBoolAndEqVar initState (bv 0) (bv 1) (bv 2)).1 = none := by
  decide

/-- Claim C5: on valid boolean operands, `AddBoolEq` adds exactly
`(¬L ∨ R)` and `(L ∨ ¬R)`, `AddBoolLe` adds exactly `(¬L ∨ R)`, and
`AddBoolNot` adds exactly `(¬L ∨ ¬R)` and `(L ∨ R)`, each returning
`true`. -/
theorem c5_binary_gate_clauses (s : SatState) (l r : IntExpr)
    (hl : Check l = true) (hr : Check r = true) :
    (AddBoolEq s l r).1 = true
    ∧ (AddBoolEq s l r).2.clauses = s.clauses ++
        [[litNot (Literal s l).1, (Literal (Literal s l).2 r).1],
         [(Literal s l).1, litNot ((Literal (Literal s l).2 r).1)]]
    ∧ (AddBoolLe s l r).1 = true
    ∧ (AddBoolLe s l r).2.clauses = s.clauses ++
        [[litNot (Literal s l).1, (Literal (Literal s l).2 r).1]]
    ∧ (AddBoolNot s l r).1 = true
    ∧ (AddBoolNot s l r).2.clauses = s.clauses ++
        [[litNot (Literal s l).1, litNot ((Literal (Literal s l).2 r).1)],
         [(Literal s l).1, (Literal (Literal s l).2 r).1]] := by
  have hcond : (!Check l || !Check r) = false := by simp [hl, hr]
  refine ⟨?_, ?_, ?_, ?_, ?_, ?_⟩ <;>
    simp [AddBoolEq, AddBoolLe, AddBoolNot, AddClause, hcond,
      literal_clauses]

/-- Concrete run of `c5_binary_gate_clauses` on two fresh valid boolean
variables. -/
theorem c5_binary_gate_clauses_witness :
    Check (bv 0) = true
    ∧ Check (bv 1) = true
    ∧ ((AddBoolEq initState (bv 0) (bv 1)).1 = true
    ∧ (AddBoolEq initState (bv 0) (bv 1)).2.clauses = initState.clauses ++
        [[litNot (Literal initState (bv 0)).1,
          (Literal (Literal initState (bv 0)).2 (bv 1)).1],
         [(Literal initState (bv 0)).1,
          litNot ((Literal (Literal initState (bv 0)).2 (bv 1)).1)]]
    ∧ (AddBoolLe initState (bv 0) (bv 1)).1 = true
    ∧ (AddBoolLe initState (bv 0) (bv 1)).2.clauses = initState.clauses ++
        [[litNot (Literal initState (bv 0)).1,
          (Literal (Literal initState (bv 0)).2 (bv 1)).1]]
    ∧ (AddBoolNot initState (bv 0) (bv 1)).1 = true
    ∧ (AddBoolNot initState (bv 0) (bv 1)).2.clauses = initState.clauses ++
        [[litNot (Literal initState (bv 0)).1,
          litNot ((Literal (Literal initState (bv 0)).2 (bv 1)).1)],
         [(Literal initState (bv 0)).1,
          (Literal (Literal initState (bv 0)).2 (bv 1)).1]]) :=
  ⟨rfl, rfl, c5_binary_gate_clauses initState (bv 0) (bv 1) rfl rfl⟩

/-- Claim C6: for any boolean decision variable `v`, a repeated literal fetch
returns a literal over the same engine variable `mv` without touching the
state again (so at most the first fetch allocates), and fetching any
polarization of `v` after the first fetch gives `mkLit mv m`, whose negated
form is the complement of the un-negated form. -/
theorem c6_literal_fetch_idempotent_and_complement (s : SatState) (v : Nat)
    (n : Bool) :
    ∃ mv : Nat,
      (Literal s (IntExpr.boolRef v n)).1 = mkLit mv n
      ∧ (∀ m : Bool,
          Literal ((Literal s (IntExpr.boolRef v n)).2) (IntExpr.boolRef v m)
            = (mkLit mv m, (Literal s (IntExpr.boolRef v n)).2))
      ∧ (∀ m : Bool, litNot (mkLit mv m) = mkLit mv (!m)) := by
  cases hl : lookupVar s.indices v with
  | some mv =>
    refine ⟨mv, ?_, ?_, fun m => litNot_mkLit mv m⟩
    · simp [Literal, isBooleanVar, hl]
    · intro m
      have h2 : (Literal s (IntExpr.boolRef v n)).2 = s := by
        simp [Literal, isBooleanVar, hl]
      rw [h2]
      simp [Literal, isBooleanVar, hl]
  | none =>
    refine ⟨s.nextVar, ?_, ?_, fun m => litNot_mkLit _ m⟩
    · simp [Literal, isBooleanVar, hl]
    · intro m
      have h2 : (Literal s (IntExpr.boolRef v n)).2
          = { s with nextVar := s.nextVar + 1, vars := s.vars ++ [v],
                     indices := s.indices ++ [(v, s.nextVar)] } := by
        simp [Literal, isBooleanVar, hl]
      rw [h2]
      simp [Literal, isBooleanVar, lookupVar_append_self hl]

/-- Claim C7: when operand validation fails, every encoder operation returns
failure with the propagator state — registry, engine variable counter, clause
database and trail alike — completely unchanged.  (`Check` itself is a
`const` C++ method embedded as a pure function, so validation allocates
nothing by construction.) -/
theorem c7_validation_failure_mutates_nothing (s : SatState)
    (l r t : IntExpr) (vs : List IntExpr) :
    ((Check l && Check r) = false →
      AddBoolEq s l r = (false, s)
      ∧ AddBoolLe s l r = (false, s)
      ∧ AddBoolNot s l r = (false, s))
    ∧ ((Check l && Check r && Check t) = false →
      AddBoolAndEqVar s l r t = (some false, s))
    ∧ AddBoolAndArrayEqVar s vs t = (false, s)
    ∧ (CheckAll vs = false →
      AddBoolOrArrayEqualTrue s vs = (false, s)
      ∧ AddBoolAndArrayEqualFalse s vs = (false, s)) := by
  refine ⟨fun hlr => ?_, fun hlrt => ?_, rfl, fun hvs => ?_⟩
  · have h1 : (!Check l || !Check r) = true := by
      cases hcl : Check l <;> cases hcr : Check r <;> simp_all
    exact ⟨by simp [AddBoolEq, h1], by simp [AddBoolLe, h1],
      by simp [AddBoolNot, h1]⟩
  · have h2 : (!Check l || !Check r || !Check t) = true := by
      cases hcl : Check l <;> cases hcr : Check r <;> cases hct : Check t <;>
        simp_all
    simp [AddBoolAndEqVar, h2]
  · exact ⟨by simp [AddBoolOrArrayEqualTrue, hvs],
      by simp [AddBoolAndArrayEqualFalse, hvs]⟩

/-- Concrete runs of `c7_validation_failure_mutates_nothing`: a non-boolean
left operand for the binary gates, a non-boolean target (with both other
operands valid) for the ternary gate, and a non-boolean list element for the
N-ary gates. -/
theorem c7_validation_failure_mutates_nothing_witness :
    AddBoolEq initState (IntExpr.nonBool 0) (bv 1) = (false, initState)
    ∧ AddBoolLe initState (IntExpr.nonBool 0) (bv 1) = (false, initState)
    ∧ AddBoolNot initState (IntExpr.nonBool 0) (bv 1) = (false, initState)
    ∧ AddBoolAndEqVar initState (bv 1) (bv 2) (IntExpr.nonBool 3)
        = (some false, initState)
    ∧ AddBoolAndArrayEqVar initState [IntExpr.nonBool 0] (bv 2)
        = (false, initState)
    ∧ AddBoolOrArrayEqualTrue initState [IntExpr.nonBool 0]
        = (false, initState)
    ∧ AddBoolAndArrayEqualFalse initState [IntExpr.nonBool 0]
        = (false, initState) :=
  ⟨((c7_validation_failure_mutates_nothing initState (IntExpr.nonBool 0)
      (bv 1) (bv 2) [IntExpr.nonBool 0]).1 (by decide)).1,
   ((c7_validation_failure_mutates_nothing initState (IntExpr.nonBool 0)
      (bv 1) (bv 2) [IntExpr.nonBool 0]).1 (by decide)).2.1,
   ((c7_validation_failure_mutates_nothing initState (IntExpr.nonBool 0)
      (bv 1) (bv 2) [IntExpr.nonBool 0]).1 (by decide)).2.2,
   (c7_validation_failure_mutates_nothing initState (bv 1)
      (bv 2) (IntExpr.nonBool 3) [IntExpr.nonBool 0]).2.1 (by decide),
   (c7_validation_failure_mutates_nothing initState (IntExpr.nonBool 0)
      (bv 1) (bv 2) [IntExpr.nonBool 0]).2.2.1,
   ((c7_validation_failure_mutates_nothing initState (IntExpr.nonBool 0)
      (bv 1) (bv 2) [IntExpr.nonBool 0]).2.2.2 (by decide)).1,
   ((c7_validation_failure_mutates_nothing initState (IntExpr.nonBool 0)
      (bv 1) (bv 2) [IntExpr.nonBool 0]).2.2.2 (by decide)).2⟩

/-- Claim C9: the variable-to-engine-variable registry only grows: an entry
present before any single operation (encoder call, literal fetch, bind event
or host backtrack) is still present, unchanged, afterwards — likewise after
any sequence of operations — and a literal fetch on a boolean reference
leaves an entry for its variable in the registry. -/
theorem c9_registry_grow_only (s : SatState) (k mv v : Nat) (n : Bool)
    (op : SolverOp) (ops : List SolverOp)
    (hk : lookupVar s.indices k = some mv) :
    lookupVar (applySolverOp s op).indices k = some mv
    ∧ lookupVar (runSolverOps s ops).indices k = some mv
    ∧ (lookupVar ((Literal s (IntExpr.boolRef v n)).2).indices v).isSome
        = true := by
  refine ⟨applySolverOp_indices_mono s op hk,
    runSolverOps_indices_mono ops s hk, ?_⟩
  cases hl : lookupVar s.indices v with
  | some m => simp [Literal, isBooleanVar, hl]
  | none => simp [Literal, isBooleanVar, hl, lookupVar_append_self hl]

/-- Concrete run of `c9_registry_grow_only`: variable 5 is registered as
engine variable 0 in `regState` and survives an encoder call, and a
bind/backtrack sequence, while fetching fresh variable 7 registers it. -/
theorem c9_registry_grow_only_witness :
    lookupVar regState.indices 5 = some 0
    ∧ (lookupVar (applySolverOp regState (SolverOp.opEq (bv 5) (bv 7))).indices
          5 = some 0
    ∧ lookupVar (runSolverOps regState
          [SolverOp.opBound oracleTrue 0 true, SolverOp.opBacktrack 1,
           SolverOp.opLe (bv 5) (bv 9)]).indices 5 = some 0
    ∧ (lookupVar ((Literal regState (IntExpr.boolRef 7 false)).2).indices
          7).isSome = true) :=
  ⟨by decide,
    c9_registry_grow_only regState 5 0 7 false
      (SolverOp.opEq (bv 5) (bv 7))
      [SolverOp.opBound oracleTrue 0 true, SolverOp.opBacktrack 1,
       SolverOp.opLe (bv 5) (bv 9)] (by decide)⟩

/-- Claim C10: the list check passes vacuously on the empty vector, and both
N-ary encoders called on the empty vector append the empty clause to the
clause database, after which the database is unsatisfiable and stays so under
any further sequence of operations. -/
theorem c10_empty_vector_adds_empty_clause (s : SatState)
    (ops : List SolverOp) (cs : List (List Lit)) (hc : [] ∈ cs) :
    CheckAll [] = true
    ∧ (AddBoolOrArrayEqualTrue s []).2.clauses = s.clauses ++ [[]]
    ∧ (AddBoolAndArrayEqualFalse s []).2.clauses = s.clauses ++ [[]]
    ∧ ¬ cnfSatisfiable cs
    ∧ ¬ cnfSatisfiable
        (runSolverOps (AddBoolOrArrayEqualTrue s []).2 ops).clauses
    ∧ ¬ cnfSatisfiable
        (runSolverOps (AddBoolAndArrayEqualFalse s []).2 ops).clauses := by
  have h2 : (AddBoolOrArrayEqualTrue s []).2.clauses = s.clauses ++ [[]] := by
    simp [AddBoolOrArrayEqualTrue, CheckAll, LiteralList, AddClause]
  have h3 : (AddBoolAndArrayEqualFalse s []).2.clauses
      = s.clauses ++ [[]] := by
    simp [AddBoolAndArrayEqualFalse, CheckAll, LiteralList, AddClause]
  refine ⟨rfl, h2, h3, emptyClause_unsat hc, ?_, ?_⟩
  · refine emptyClause_unsat (runSolverOps_clauses_mem ops _ ?_)
    rw [h2]
    simp
  · refine emptyClause_unsat (runSolverOps_clauses_mem ops _ ?_)
    rw [h3]
    simp

/-- Concrete run of `c10_empty_vector_adds_empty_clause` from the initial
state. -/
theorem c10_empty_vector_adds_empty_clause_witness :
    ([] : List Lit) ∈ [([] : List Lit)]
    ∧ (CheckAll [] = true
    ∧ (AddBoolOrArrayEqualTrue initState []).2.clauses
        = initState.clauses ++ [[]]
    ∧ (AddBoolAndArrayEqualFalse initState []).2.clauses
        = initState.clauses ++ [[]]
    ∧ ¬ cnfSatisfiable [([] : List Lit)]
    ∧ ¬ cnfSatisfiable
        (runSolverOps (AddBoolOrArrayEqualTrue initState []).2 []).clauses
    ∧ ¬ cnfSatisfiable
        (runSolverOps (AddBoolAndArrayEqualFalse initState []).2 []).clauses) :=
  ⟨by simp,
    c10_empty_vector_adds_empty_clause initState [] [[]] (by simp)⟩

/-- Claim C3: from any state whose reversible counter does not exceed the
trail's backing length, (i) the counter bound is preserved by every operation
sequence and the logical trail (the `take`-prefix) has exactly the counter's
length, (ii) the assumption list a bind hands to the engine has exactly the
new counter's length, and (iii) binding literal A, backtracking past it, and
binding a different engine variable B yields an assumption set for B that
does not contain A's literal. -/
theorem c3_trail_length_and_backtrack_isolation (s : SatState)
    (ops : List SolverOp)
    (g h : List (List Lit) → List Lit → Bool)
    (iA iB : Nat) (vA vB : Bool)
    (hs : s.num_bound_literals ≤ s.bound_literals.length)
    (hA : mkLit iA vA ∉ s.bound_literals.take s.num_bound_literals)
    (hAB : iA ≠ iB) :
    (runSolverOps s ops).num_bound_literals
        ≤ (runSolverOps s ops).bound_literals.length
    ∧ ((runSolverOps s ops).bound_literals.take
        (runSolverOps s ops).num_bound_literals).length
        = (runSolverOps s ops).num_bound_literals
    ∧ ((VariableBound g s iA vA).2.bound_literals).length
        = (VariableBound g s iA vA).2.num_bound_literals
    ∧ mkLit iA vA ∉
        (VariableBound h
          (applySolverOp (applySolverOp s (SolverOp.opBound g iA vA))
            (SolverOp.opBacktrack 1))
          iB vB).2.bound_literals := by
  have hinv := runSolverOps_counter_le ops s hs
  refine ⟨hinv, ?_, ?_, ?_⟩
  · rw [List.length_take]
    omega
  · rw [variableBound_state]
    simp [resizeLits_length]
  · have hT : resizeLits s.bound_literals s.num_bound_literals
        = s.bound_literals.take s.num_bound_literals := by
      simp [resizeLits, Nat.sub_eq_zero_of_le hs]
    simp only [applySolverOp, variableBound_state]
    simp only [Nat.add_sub_cancel]
    have hres : resizeLits
        (resizeLits s.bound_literals s.num_bound_literals ++ [mkLit iA vA])
        s.num_bound_literals
        = resizeLits s.bound_literals s.num_bound_literals := by
      simp only [resizeLits_length, resizeLits, List.length_append,
        List.length_take, List.length_replicate, List.length_cons,
        List.length_nil]
      rw [List.take_left']
      · simp
        omega
      · simp [List.length_take, List.length_replicate]
        omega
    rw [hres, hT]
    simp only [List.mem_append, List.mem_singleton]
    rintro (hmem | hmem)
    · exact hA hmem
    · exact mkLit_ne vA vB hAB hmem

/-- Concrete run of `c3_trail_length_and_backtrack_isolation` from the
initial state: bind engine variable 0, backtrack, bind engine variable 1. -/
theorem c3_trail_length_and_backtrack_isolation_witness :
    initState.num_bound_literals ≤ initState.bound_literals.length
    ∧ mkLit 0 true ∉
        initState.bound_literals.take initState.num_bound_literals
    ∧ (0 : Nat) ≠ 1
    ∧ ((runSolverOps initState []).num_bound_literals
        ≤ (runSolverOps initState []).bound_literals.length
    ∧ ((runSolverOps initState []).bound_literals.take
        (runSolverOps initState []).num_bound_literals).length
        = (runSolverOps initState []).num_bound_literals
    ∧ ((VariableBound oracleTrue initState 0 true).2.bound_literals).length
        = (VariableBound oracleTrue initState 0 true).2.num_bound_literals
    ∧ mkLit 0 true ∉
        (VariableBound oracleTrue
          (applySolverOp
            (applySolverOp initState (SolverOp.opBound oracleTrue 0 true))
            (SolverOp.opBacktrack 1))
          1 false).2.bound_literals) :=
  ⟨by decide, by decide, by decide,
    c3_trail_length_and_backtrack_isolation initState [] oracleTrue
      oracleTrue 0 1 true false (by decide) (by decide) (by decide)⟩

end OrTools
